import Mathlib

/-!
Verification of the Nintendo Enthusiast author-post archiver
(`src/ne_scraper.py`, orchestrated by `ne_archive.py`).

The archiver's core is shallowly embedded here:

* the backoff controller (`NEArchiver.__init__` lines 20-23,
  `_increment_backoff_timer` / `_decrement_backoff_timer` lines 51-55),
  with the Python float timer modelled as a rational number (all the
  operations involved are `* 2`, `/ 2`, `min`, `max`);
* listing discovery (`archive` lines 80-101 together with
  `_get_author_posts` lines 57-62), with an HTML document modelled by the
  two pieces of structure the code queries: the pagination item texts
  (already parsed as integers) and the post lists of the
  `mnmd-main-col` containers; `list.pop()` is `List.getLast?`,
  returning `none` exactly when Python raises `IndexError`;
* the batch-archiving loop (`archive` lines 110-131), a fold over the
  posts carrying the pending `tasks` list, the accumulated archived
  URLs, the backoff timer, and instrumentation counters; an asyncio
  task's outcome is fixed at creation by an oracle
  `f : Post → ArchiveOutcome` (a task runs once, re-awaiting it yields
  the same result), and `asyncio.gather` is modelled by `gatherResult`,
  which fails with the error of the first failing task in list order;
* the orchestrator's exception handlers (`archive` lines 137-149).
-/

namespace NEScraper

/-- A post reference; stands for the canonical URL extracted from a
listing page's `h3.post__title` anchor. -/
abbrev Post := Nat

/-- An archived-snapshot URL as returned by `WaybackMachineSaveAPI.save`. -/
abbrev Url := Nat

/-! ## Backoff controller -/

/-- `self._back_off_timer_min = 1.0` (line 23); also the initial value of
`self._back_off_timer` (line 21). -/
def min_wait : ℚ := 1

/-- `self._back_off_timer_max = max(60.0, max_backoff_override)` (line 22). -/
def max_wait (max_backoff_override : ℚ) : ℚ := max 60 max_backoff_override

/-- `_increment_backoff_timer` (line 51-52):
`self._back_off_timer = min(self._back_off_timer * 2, self._back_off_timer_max)`. -/
def increment_backoff_timer (backOffTimerMax w : ℚ) : ℚ :=
  min (w * 2) backOffTimerMax

/-- `_decrement_backoff_timer` (line 54-55):
`self._back_off_timer = max(self._back_off_timer / 2, self._back_off_timer_min)`. -/
def decrement_backoff_timer (w : ℚ) : ℚ :=
  max (w / 2) min_wait

/-- One transition of the backoff controller: `throttled` is a call to
`_increment_backoff_timer`, `batchSuccess` one to `_decrement_backoff_timer`. -/
inductive BackoffStep where
  | throttled
  | batchSuccess
deriving DecidableEq

/-- Apply one backoff transition to the timer value. -/
def applyStep (backOffTimerMax w : ℚ) : BackoffStep → ℚ
  | .throttled => increment_backoff_timer backOffTimerMax w
  | .batchSuccess => decrement_backoff_timer w

/-- Run a sequence of backoff transitions from a starting timer value. -/
def runSteps (backOffTimerMax : ℚ) (w : ℚ) (l : List BackoffStep) : ℚ :=
  l.foldl (applyStep backOffTimerMax) w

/-! ## Listing discovery -/

/-- The structure of a listing page that `archive` queries: the integer
texts of the `a.mnmd-pagination__item` elements, and for each
`div.mnmd-main-col` container the post references of its
`h3.post__title` elements. -/
structure PageDoc where
  pagination : List Nat
  mainCols : List (List Post)
deriving DecidableEq

/-- `_get_author_posts` (lines 57-62): take the LAST `mnmd-main-col`
container (`list.pop()` pops from the end) and return its posts; `none`
models the `IndexError` raised by `pop` on an empty result set. -/
def get_author_posts (d : PageDoc) : Option (List Post) :=
  d.mainCols.getLast?

/-- The `for page_soup in remaining_pages_soup: author_posts.extend(...)`
loop (lines 100-101): concatenate every page's posts in page order,
failing at the first page whose extraction raises. -/
def extendAuthorPosts : List PageDoc → Option (List Post)
  | [] => some []
  | d :: ds =>
    match get_author_posts d, extendAuthorPosts ds with
    | some ps, some rest => some (ps ++ rest)
    | _, _ => none

/-- Discovery (lines 80-101): fetch page 1, pop the last pagination item
as the total page count, fetch pages `2..total` in ascending order, and
concatenate page 1's posts with the remaining pages' posts in page
order. `fetch n` is the parsed document of listing page `n`; `none`
models an `IndexError` escaping this phase. -/
def discover (fetch : Nat → PageDoc) : Option (List Post) :=
  match (fetch 1).pagination.getLast? with
  | none => none
  | some total =>
    let remainingPages := (List.range' 2 (total - 1)).map fetch
    match get_author_posts (fetch 1), extendAuthorPosts remainingPages with
    | some posts1, some rest => some (posts1 ++ rest)
    | _, _ => none

/-! ## Batch archiving loop -/

/-- The outcome of a single post's archive task, fixed when the task is
created: `_archive` returns an archived URL, raises
`TooManyRequestsError`, or raises some other exception. -/
inductive ArchiveOutcome where
  | success (url : Url)
  | rateLimit
  | genericError
deriving DecidableEq

/-- The error `asyncio.gather` propagates out of a batch. -/
inductive ArchErr where
  | rateLimit
  | generic
deriving DecidableEq

/-- `await asyncio.gather(*tasks)` over the pending tasks: the results in
task order if every task succeeds, otherwise the error of the first
failing task in list order. -/
def gatherResult (f : Post → ArchiveOutcome) : List Post → Except ArchErr (List Url)
  | [] => .ok []
  | p :: ps =>
    match f p with
    | .success u => (gatherResult f ps).map (fun us => u :: us)
    | .rateLimit => .error .rateLimit
    | .genericError => .error .generic

/-- The mutable state of the batching loop (lines 110-131): the pending
`tasks` list, `self._archived_page_urls`, `self._back_off_timer`, the
number of `_increment_backoff_timer` and `_decrement_backoff_timer`
calls made so far, and the durations passed to `time.sleep` in order
(in minutes, the unit of `self._back_off_timer`). -/
structure LoopState where
  tasks : List Post
  acc : List Url
  timer : ℚ
  throttles : Nat
  successes : Nat
  sleeps : List ℚ
deriving DecidableEq

/-- Loop state on entry to the `for idx, author_post in enumerate(...)`
loop: no pending tasks, nothing archived, timer at its initial value 1. -/
def initState : LoopState :=
  ⟨[], [], min_wait, 0, 0, []⟩

/-- One iteration of the archiving loop (lines 112-131): create the
post's task; when the task count reaches a multiple of 15, gather the
batch. On success: extend the accumulator, clear `tasks`, sleep for the
current timer, then decrement it. On `TooManyRequestsError`: sleep for
the current timer, increment it, and `continue` WITHOUT clearing
`tasks`. Any other exception propagates out of the loop carrying the
accumulator (`Except.error`). -/
def stepPost (f : Post → ArchiveOutcome) (backOffTimerMax : ℚ) (s : LoopState)
    (p : Post) : Except (List Url) LoopState :=
  let tasks := s.tasks ++ [p]
  if tasks.length % 15 = 0 then
    match gatherResult f tasks with
    | .ok urls =>
      .ok ⟨[], s.acc ++ urls, decrement_backoff_timer s.timer,
           s.throttles, s.successes + 1, s.sleeps ++ [s.timer]⟩
    | .error .rateLimit =>
      .ok ⟨tasks, s.acc, increment_backoff_timer backOffTimerMax s.timer,
           s.throttles + 1, s.successes, s.sleeps ++ [s.timer]⟩
    | .error .generic => .error s.acc
  else
    .ok { s with tasks := tasks }

/-- The whole archiving loop over the discovered posts. -/
def archiveLoop (f : Post → ArchiveOutcome) (backOffTimerMax : ℚ)
    (posts : List Post) : Except (List Url) LoopState :=
  posts.foldlM (stepPost f backOffTimerMax) initState

/-! ## Orchestrator -/

/-- How a run of `NEArchiver.archive` ends, as observed through its
logging: `completed` is the "All N successfully archived" path (line
132) with the accumulated archived URLs; `invalidAuthor` is the
`except IndexError` handler (lines 137-141), which reports no results;
`genericFailure` is the `except Exception` handler (lines 142-149),
which reports the URLs accumulated before the error. -/
inductive RunOutcome where
  | completed (archived : List Url)
  | invalidAuthor
  | genericFailure (archived : List Url)
deriving DecidableEq

/-- `NEArchiver.archive` end to end: discovery, then the batching loop,
with the two exception handlers. `f` is the archive-task oracle and
`maxBackoffOverride` the CLI `--max-backoff-override` value. -/
def archive (fetch : Nat → PageDoc) (f : Post → ArchiveOutcome)
    (maxBackoffOverride : ℚ) : RunOutcome :=
  match discover fetch with
  | none => .invalidAuthor
  | some posts =>
    match archiveLoop f (max_wait maxBackoffOverride) posts with
    | .error acc => .genericFailure acc
    | .ok s => .completed s.acc

/-- The rational-free part of a final loop state: pending tasks,
accumulated archived URLs, number of backoff increments, number of
backoff decrements. -/
def loopView (r : Except (List Url) LoopState) :
    Option (List Post × List Url × Nat × Nat) :=
  match r with
  | .ok s => some (s.tasks, s.acc, s.throttles, s.successes)
  | .error _ => none

/-- The accumulator carried by a generic-exception exit of the loop. -/
def loopFailure (r : Except (List Url) LoopState) : Option (List Url) :=
  match r with
  | .ok _ => none
  | .error acc => some acc

/-- Archive-task oracle where the task for post 10 signals
`TooManyRequestsError` and every other task succeeds. -/
def rateLimitOracle : Post → ArchiveOutcome :=
  fun n => if n = 10 then .rateLimit else .success n

/-- A loop state with fourteen pending tasks, as reached just before the
fifteenth post of the first batch is processed. -/
def s14 : LoopState :=
  ⟨List.range 14, [], 1, 0, 0, []⟩

/-! ## Helper lemmas about the backoff controller -/

theorem one_le_max_wait (ov : ℚ) : 1 ≤ max_wait ov :=
  le_trans (by norm_num) (le_max_left 60 ov)

theorem increment_bounds {backOffTimerMax w : ℚ} (h1 : 1 ≤ w)
    (h2 : w ≤ backOffTimerMax) :
    1 ≤ increment_backoff_timer backOffTimerMax w ∧
      increment_backoff_timer backOffTimerMax w ≤ backOffTimerMax := by
  unfold increment_backoff_timer
  exact ⟨le_min (by linarith) (by linarith), min_le_right _ _⟩

theorem decrement_bounds {backOffTimerMax w : ℚ} (h1 : 1 ≤ w)
    (h2 : w ≤ backOffTimerMax) :
    1 ≤ decrement_backoff_timer w ∧
      decrement_backoff_timer w ≤ backOffTimerMax := by
  unfold decrement_backoff_timer min_wait
  exact ⟨le_max_right _ _, max_le (by linarith) (by linarith)⟩

theorem runSteps_bounds {backOffTimerMax : ℚ} :
    ∀ (l : List BackoffStep) (w : ℚ), 1 ≤ w → w ≤ backOffTimerMax →
      1 ≤ runSteps backOffTimerMax w l ∧ runSteps backOffTimerMax w l ≤ backOffTimerMax := by
  intro l
  induction l with
  | nil => intro w h1 h2; exact ⟨h1, h2⟩
  | cons s l ih =>
    intro w h1 h2
    have hstep : 1 ≤ applyStep backOffTimerMax w s ∧
        applyStep backOffTimerMax w s ≤ backOffTimerMax := by
      cases s with
      | throttled => exact increment_bounds h1 h2
      | batchSuccess => exact decrement_bounds h1 h2
    simpa [runSteps, List.foldl_cons] using ih _ hstep.1 hstep.2

/-! ## Claim theorems -/

/-- C1: the backoff state invariant holds at all times: with
`min_wait = 1` and `max_wait = max 60 override`, the timer starts at
`min_wait` and after every sequence of throttled/batch-success
transitions it stays within `[min_wait, max_wait]`. -/
theorem backoff_invariant (ov : ℚ) :
    runSteps (max_wait ov) min_wait [] = min_wait ∧
    ∀ l : List BackoffStep,
      min_wait ≤ runSteps (max_wait ov) min_wait l ∧
        runSteps (max_wait ov) min_wait l ≤ max_wait ov := by
  refine ⟨rfl, fun l => ?_⟩
  exact runSteps_bounds l min_wait le_rfl (one_le_max_wait ov)

theorem increment_fixed {backOffTimerMax : ℚ} (hm : 0 ≤ backOffTimerMax) :
    increment_backoff_timer backOffTimerMax backOffTimerMax = backOffTimerMax := by
  unfold increment_backoff_timer
  exact min_eq_right (by linarith)

theorem increment_reach {backOffTimerMax : ℚ} :
    ∀ (n : ℕ) (w : ℚ), 1 ≤ w → w ≤ backOffTimerMax →
      backOffTimerMax ≤ 2 ^ n * w →
      (increment_backoff_timer backOffTimerMax)^[n] w = backOffTimerMax := by
  intro n
  induction n with
  | zero =>
    intro w h1 h2 h3
    simpa using le_antisymm h2 (by simpa using h3)
  | succ n ih =>
    intro w h1 h2 h3
    rw [Function.iterate_succ_apply]
    by_cases hc : backOffTimerMax ≤ w * 2
    · rw [show increment_backoff_timer backOffTimerMax w = backOffTimerMax from
        min_eq_right hc]
      exact Function.iterate_fixed (increment_fixed (by linarith)) n
    · push_neg at hc
      rw [show increment_backoff_timer backOffTimerMax w = w * 2 from min_eq_left hc.le]
      apply ih (w * 2) (by linarith) hc.le
      calc backOffTimerMax ≤ 2 ^ (n + 1) * w := h3
        _ = 2 ^ n * (w * 2) := by ring

theorem decrement_fixed : decrement_backoff_timer min_wait = min_wait := by
  unfold decrement_backoff_timer min_wait
  norm_num

theorem decrement_reach :
    ∀ (n : ℕ) (w : ℚ), 1 ≤ w → w ≤ 2 ^ n →
      decrement_backoff_timer^[n] w = min_wait := by
  intro n
  induction n with
  | zero =>
    intro w h1 h2
    simpa [min_wait] using le_antisymm (by simpa using h2) h1
  | succ n ih =>
    intro w h1 h2
    rw [Function.iterate_succ_apply]
    by_cases hc : w / 2 ≤ 1
    · rw [show decrement_backoff_timer w = min_wait from by
        unfold decrement_backoff_timer min_wait; exact max_eq_right hc]
      exact Function.iterate_fixed decrement_fixed n
    · push_neg at hc
      rw [show decrement_backoff_timer w = w / 2 from by
        unfold decrement_backoff_timer min_wait; exact max_eq_left hc.le]
      apply ih (w / 2) hc.le
      have hp : (2 : ℚ) ^ (n + 1) = 2 ^ n * 2 := pow_succ 2 n
      linarith

/-- C7: from any wait value in `[min_wait, max_wait]`, repeated
`_increment_backoff_timer` calls reach exactly `max_wait` in finitely
many steps and stay there; repeated `_decrement_backoff_timer` calls
reach exactly `min_wait` and stay there; and decrementing at `min_wait`
leaves the value unchanged. -/
theorem backoff_convergence (ov : ℚ) (w : ℚ) (h1 : min_wait ≤ w)
    (h2 : w ≤ max_wait ov) :
    (∃ n, ∀ m, n ≤ m →
      (increment_backoff_timer (max_wait ov))^[m] w = max_wait ov) ∧
    (∃ n, ∀ m, n ≤ m → decrement_backoff_timer^[m] w = min_wait) ∧
    decrement_backoff_timer min_wait = min_wait := by
  have h1' : 1 ≤ w := by simpa [min_wait] using h1
  refine ⟨?_, ?_, decrement_fixed⟩
  · obtain ⟨n, hn⟩ := pow_unbounded_of_one_lt (max_wait ov) (by norm_num : (1:ℚ) < 2)
    refine ⟨n, fun m hm => ?_⟩
    have hpow : (2 : ℚ) ^ n ≤ 2 ^ m := pow_le_pow_right₀ (by norm_num) hm
    have hw : (2 : ℚ) ^ m ≤ 2 ^ m * w := le_mul_of_one_le_right (by positivity) h1'
    exact increment_reach m w h1' h2 (by linarith)
  · obtain ⟨n, hn⟩ := pow_unbounded_of_one_lt w (by norm_num : (1:ℚ) < 2)
    refine ⟨n, fun m hm => ?_⟩
    have hpow : (2 : ℚ) ^ n ≤ 2 ^ m := pow_le_pow_right₀ (by norm_num) hm
    exact decrement_reach m w h1' (by linarith)

/-- Witness for C7 at the concrete starting value `w = 1`, `override = 0`. -/
theorem backoff_convergence_witness :
    min_wait ≤ (1 : ℚ) ∧ (1 : ℚ) ≤ max_wait 0 ∧
    ((∃ n, ∀ m, n ≤ m →
        (increment_backoff_timer (max_wait 0))^[m] (1 : ℚ) = max_wait 0) ∧
      (∃ n, ∀ m, n ≤ m → decrement_backoff_timer^[m] (1 : ℚ) = min_wait) ∧
      decrement_backoff_timer min_wait = min_wait) :=
  ⟨by norm_num [min_wait], by norm_num [max_wait],
    backoff_convergence 0 1 (by norm_num [min_wait]) (by norm_num [max_wait])⟩

/-- C10: for every value of the `--max-backoff-override` parameter,
including zero and negative values, the constructed bounds are
well-formed: `min_wait ≤ max_wait override`, because the maximum is
taken with the default floor 60. -/
theorem max_wait_well_formed (ov : ℚ) : min_wait ≤ max_wait ov :=
  le_trans (by norm_num [min_wait]) (le_max_left 60 ov)

/-! ## Discovery lemmas -/

theorem extendAuthorPosts_map (N : ℕ) (postsOf : ℕ → List Post) :
    ∀ l : List ℕ,
      extendAuthorPosts (l.map (fun i => ⟨[N], [postsOf i]⟩)) =
        some ((l.map postsOf).flatten) := by
  intro l
  induction l with
  | nil => rfl
  | cons a l ih => simp [extendAuthorPosts, get_author_posts, ih]

theorem flatten_length_const (k : ℕ) (postsOf : ℕ → List Post)
    (hk : ∀ i, (postsOf i).length = k) :
    ∀ l : List ℕ, ((l.map postsOf).flatten).length = l.length * k := by
  intro l
  induction l with
  | nil => simp
  | cons a l ih => simp [ih, hk, Nat.succ_mul, Nat.add_comm]

/-- C4: for a listing root with `N` total pages each holding `k` posts,
discovery returns exactly the concatenation of the pages' post lists in
ascending page order (page 1 first, then 2..N), hence `N * k` post
references with the within-page order preserved. -/
theorem discover_page_order (N k : ℕ) (postsOf : ℕ → List Post)
    (hN : 1 ≤ N) (hk : ∀ i, (postsOf i).length = k) :
    discover (fun i => ⟨[N], [postsOf i]⟩) =
      some (((List.range' 1 N).map postsOf).flatten) ∧
    (((List.range' 1 N).map postsOf).flatten).length = N * k := by
  obtain ⟨n, rfl⟩ : ∃ n, N = n + 1 := ⟨N - 1, (Nat.succ_pred_eq_of_pos hN).symm⟩
  constructor
  · unfold discover
    simp [get_author_posts, extendAuthorPosts_map (n + 1) postsOf, List.range'_succ]
  · rw [flatten_length_const k postsOf hk, List.length_range']

/-- Witness for C4 at `N = 2` pages of `k = 1` post each. -/
theorem discover_page_order_witness :
    1 ≤ 2 ∧ (∀ i : ℕ, ([i] : List Post).length = 1) ∧
    (discover (fun i => ⟨[2], [[i]]⟩) =
        some (((List.range' 1 2).map (fun i => [i])).flatten) ∧
      (((List.range' 1 2).map (fun i : ℕ => ([i] : List Post))).flatten).length = 2 * 1) :=
  ⟨by decide, fun i => rfl,
    discover_page_order 2 1 (fun i => [i]) (by decide) (fun i => rfl)⟩

/-- C5: if the first listing page has no pagination elements, `pop`
raises `IndexError`, discovery fails, and the run ends in the
invalid-author report, independently of the archive oracle (so no
archive submission is attempted) and with no archived results. -/
theorem no_pagination_invalid_author (fetch : ℕ → PageDoc)
    (f : Post → ArchiveOutcome) (ov : ℚ)
    (h : (fetch 1).pagination = []) :
    archive fetch f ov = .invalidAuthor := by
  unfold archive discover
  rw [h]
  rfl

/-- Witness for C5 on a first page with no pagination control. -/
theorem no_pagination_invalid_author_witness :
    ((fun _ => (⟨[], []⟩ : PageDoc)) 1).pagination = ([] : List ℕ) ∧
    archive (fun _ => ⟨[], []⟩) (fun _ => .success 0) 0 = .invalidAuthor :=
  ⟨rfl, no_pagination_invalid_author _ _ _ rfl⟩

/-! ## Batching-loop theorems -/

/-- C8: whenever a batch gather succeeds, the loop appends the batch's
results to the accumulator, clears the pending tasks, records a sleep
of the PRE-relaxation timer value, and only then halves the timer
(`_decrement_backoff_timer`), so the relaxed wait first applies to the
batch after next. -/
theorem batch_success_sleep_then_relax (f : Post → ArchiveOutcome)
    (backOffTimerMax : ℚ) (s : LoopState) (p : Post) (urls : List Url)
    (hlen : (s.tasks ++ [p]).length % 15 = 0)
    (hgather : gatherResult f (s.tasks ++ [p]) = .ok urls) :
    stepPost f backOffTimerMax s p =
      .ok ⟨[], s.acc ++ urls, decrement_backoff_timer s.timer,
           s.throttles, s.successes + 1, s.sleeps ++ [s.timer]⟩ := by
  unfold stepPost
  have hlen' : (s.tasks.length + 1) % 15 = 0 := by simpa using hlen
  simp [hlen', hgather]

/-- Witness for C8: completing the first batch of fifteen successful
tasks from the state with fourteen pending tasks. -/
theorem batch_success_sleep_then_relax_witness :
    (s14.tasks ++ [14]).length % 15 = 0 ∧
    gatherResult (fun n => .success n) (s14.tasks ++ [14]) = .ok (List.range 15) ∧
    stepPost (fun n => .success n) (max_wait 0) s14 14 =
      .ok ⟨[], s14.acc ++ List.range 15, decrement_backoff_timer s14.timer,
           s14.throttles, s14.successes + 1, s14.sleeps ++ [s14.timer]⟩ :=
  ⟨by decide, by rfl,
    batch_success_sleep_then_relax _ _ _ _ _ (by decide) (by rfl)⟩

/-- C2 counterexample: with 30 posts where only post 10's task signals
`TooManyRequestsError`, the code does NOT retry the batch: it leaves
the failed tasks pending, re-awaits them (plus the next fifteen) at
task count 30 where the stored failure re-raises, ending with
`_increment_backoff_timer` called twice — not once — and nothing
archived, rather than every post archived exactly once. -/
theorem throttled_batch_not_retried_cex :
    loopView (archiveLoop rateLimitOracle (max_wait 0) (List.range 30)) =
      some (List.range 30, [], 2, 0) ∧
    ¬ ∃ s, archiveLoop rateLimitOracle (max_wait 0) (List.range 30) = .ok s ∧
        s.throttles = 1 ∧ s.acc.length = 30 := by
  constructor
  · decide
  · rintro ⟨s, hs, h1, _⟩
    have hv : loopView (archiveLoop rateLimitOracle (max_wait 0) (List.range 30)) =
        some (s.tasks, s.acc, s.throttles, s.successes) := by
      rw [hs]; rfl
    have : (2 : Nat) = s.throttles := by
      have h2 : loopView (archiveLoop rateLimitOracle (max_wait 0) (List.range 30)) =
          some (List.range 30, [], 2, 0) := by decide
      rw [h2] at hv
      exact congrArg (fun o => (o.getD (([], [], 0, 0))).2.2.1) hv
    omega

/-- C2 amended: when a gather fails with the rate-limit signal, the loop
records a sleep of the current timer, calls `_increment_backoff_timer`
once for that signal, and continues with the pending task list NOT
cleared and the accumulator unchanged — the batch is never re-issued
from scratch. -/
theorem rate_limit_no_retry (f : Post → ArchiveOutcome)
    (backOffTimerMax : ℚ) (s : LoopState) (p : Post)
    (hlen : (s.tasks ++ [p]).length % 15 = 0)
    (hgather : gatherResult f (s.tasks ++ [p]) = .error .rateLimit) :
    stepPost f backOffTimerMax s p =
      .ok ⟨s.tasks ++ [p], s.acc, increment_backoff_timer backOffTimerMax s.timer,
           s.throttles + 1, s.successes, s.sleeps ++ [s.timer]⟩ := by
  unfold stepPost
  have hlen' : (s.tasks.length + 1) % 15 = 0 := by simpa using hlen
  simp [hlen', hgather]

/-- Witness for the amended C2: the first batch's gather fails with the
rate-limit signal from the state with fourteen pending tasks. -/
theorem rate_limit_no_retry_witness :
    (s14.tasks ++ [14]).length % 15 = 0 ∧
    gatherResult rateLimitOracle (s14.tasks ++ [14]) = .error .rateLimit ∧
    stepPost rateLimitOracle (max_wait 0) s14 14 =
      .ok ⟨s14.tasks ++ [14], s14.acc, increment_backoff_timer (max_wait 0) s14.timer,
           s14.throttles + 1, s14.successes, s14.sleeps ++ [s14.timer]⟩ :=
  ⟨by decide, by rfl, rate_limit_no_retry _ _ _ _ (by decide) (by rfl)⟩

/-- C3 (code bug): for 32 posts with no throttling, the loop gathers
only when the task count is a multiple of 15, so it completes exactly
TWO batches of fifteen, calls `_decrement_backoff_timer` twice, leaves
the last two tasks pending forever, and accumulates only 30 archived
URLs — although line 132 then logs that all 32 were archived. -/
theorem trailing_partial_batch_dropped :
    loopView (archiveLoop (fun n => .success n) (max_wait 0) (List.range 32)) =
      some ([30, 31], List.range 30, 0, 2) ∧
    (List.range 30).length = 30 := by
  constructor
  · decide
  · decide

/-- C6: a generic (non-rate-limit) exception escaping a gather aborts
the loop, and the orchestrator's generic handler reports exactly the
results accumulated before the error as a partial success. -/
theorem generic_error_partial_report (fetch : ℕ → PageDoc)
    (f : Post → ArchiveOutcome) (ov : ℚ) (posts : List Post) (acc : List Url)
    (hdisc : discover fetch = some posts)
    (hloop : archiveLoop f (max_wait ov) posts = .error acc) :
    archive fetch f ov = .genericFailure acc := by
  unfold archive
  rw [hdisc]
  simp [hloop]

/-- Witness for C6 at the spec's example: 32 posts, post 20 (index 19,
in the second batch) raises a generic error; the run terminates
reporting the 15 results of the first completed batch, not zero. -/
theorem generic_error_partial_report_witness :
    discover (fun _ => ⟨[1], [List.range 32]⟩) = some (List.range 32) ∧
    archiveLoop (fun n => if n = 19 then .genericError else .success n) (max_wait 0)
        (List.range 32) = .error (List.range 15) ∧
    (List.range 15).length = 15 ∧
    archive (fun _ => ⟨[1], [List.range 32]⟩)
        (fun n => if n = 19 then .genericError else .success n) 0 =
      .genericFailure (List.range 15) :=
  ⟨by decide, by rfl, by decide,
    generic_error_partial_report (fun _ => ⟨[1], [List.range 32]⟩)
      (fun n => if n = 19 then .genericError else .success n) 0
      (List.range 32) (List.range 15) (by decide) (by rfl)⟩

/-- C9 counterexample: a first page whose pagination reads "1" and whose
main container holds no posts makes discovery yield zero post
references WITHOUT an error; the run then takes the normal completion
path ("All 0 successfully archived"), not the invalid-author report. -/
theorem zero_posts_reported_completed_cex :
    archive (fun _ => ⟨[1], [[]]⟩) (fun _ => .success 0) 0 = .completed [] ∧
    archive (fun _ => ⟨[1], [[]]⟩) (fun _ => .success 0) 0 ≠ .invalidAuthor := by
  constructor
  · decide
  · decide

/-- C9 amended: when discovery succeeds but yields zero post references,
the run terminates with empty results and no archive submissions (the
outcome is independent of the archive oracle), but it reports normal
completion rather than "invalid author"; only a discovery `IndexError`
produces the invalid-author report. -/
theorem zero_posts_completed_no_submissions (fetch : ℕ → PageDoc)
    (f g : Post → ArchiveOutcome) (ov : ℚ)
    (h : discover fetch = some []) :
    archive fetch f ov = .completed [] ∧
    archive fetch f ov = archive fetch g ov := by
  unfold archive
  rw [h]
  simp [archiveLoop, initState, pure, Except.pure]

/-- Witness for the amended C9 on a one-page listing with no posts. -/
theorem zero_posts_completed_no_submissions_witness :
    discover (fun _ => ⟨[1], [[]]⟩) = some [] ∧
    (archive (fun _ => ⟨[1], [[]]⟩) (fun _ => .success 0) 0 = .completed [] ∧
      archive (fun _ => ⟨[1], [[]]⟩) (fun _ => .success 0) 0 =
        archive (fun _ => ⟨[1], [[]]⟩) (fun _ => .genericError) 0) :=
  ⟨by decide, zero_posts_completed_no_submissions _ _ _ _ (by decide)⟩

end NEScraper
